import Mathlib

/-!
Verification development for the congressional financial-disclosure
monitor.  The Python source is embedded shallowly: pure text heuristics of
`transaction_extractor.py` and `daily_run.py` become functions over
`List Char` / `String`, and the store operations of `data_manager.py` and
`filing_status_manager.py` become pure state transformers over explicit
record types (the `datetime.now().isoformat()` timestamp is passed in as
a `now : String` argument, and console `print` output is returned as a
list of lines where a claim depends on it).
-/

namespace FinDisclosure

/-- Python whitespace class `\s` (ASCII subset; all embedded inputs are ASCII). -/
def isPySpace (c : Char) : Bool :=
  c == ' ' || c == '\t' || c == '\n' || c == '\r' || c == '\x0b' || c == '\x0c'

/-- Anchored match: does `needle` occur as the initial segment of `hay`? -/
def startsWithL : List Char → List Char → Bool
  | [], _ => true
  | _ :: _, [] => false
  | a :: as, b :: bs => a == b && startsWithL as bs

/-- Python substring test `needle in hay`. -/
def containsSub (needle : List Char) : List Char → Bool
  | [] => startsWithL needle []
  | c :: cs => startsWithL needle (c :: cs) || containsSub needle cs

/-- Python `hay.find(needle)`: index of the first occurrence, if any. -/
def findSubIdx (needle : List Char) : List Char → Option Nat
  | [] => if startsWithL needle [] then some 0 else none
  | c :: cs =>
    if startsWithL needle (c :: cs) then some 0
    else (findSubIdx needle cs).map (· + 1)

/-- `re.search` start position: first index whose suffix satisfies `p`. -/
def findMatchIdx (p : List Char → Bool) : List Char → Option Nat
  | [] => if p [] then some 0 else none
  | c :: cs => if p (c :: cs) then some 0 else (findMatchIdx p cs).map (· + 1)

/-- Python `str.strip()`. -/
def trimL (l : List Char) : List Char :=
  ((l.dropWhile isPySpace).reverse.dropWhile isPySpace).reverse

/-- `TradingDataExtractor.OWNER_CODES`. -/
def owner_codes : List (String × String) :=
  [("SP", "Spouse"), ("DC", "Dependent Child"), ("JT", "Joint")]

/-- `TradingDataExtractor.AMOUNT_RANGES`. -/
def amount_ranges : List (Nat × String) :=
  [(15000, "$1,001 - $15,000"), (50000, "$15,001 - $50,000"),
   (100000, "$50,001 - $100,000"), (250000, "$100,001 - $250,000"),
   (500000, "$250,001 - $500,000"), (1000000, "$500,001 - $1,000,000"),
   (5000000, "$1,000,001 - $5,000,000"), (25000000, "$5,000,001 - $25,000,000"),
   (50000000, "$25,000,001 - $50,000,000"), (100000000, "Over $50,000,000")]

/-- `TradingDataExtractor._is_transaction_line`: a purchase or sale marker
(`'P '` / `'S '`), a dollar sign, and at least one digit. -/
def is_transaction_line (l : List Char) : Bool :=
  (containsSub "P ".data l || containsSub "S ".data l) &&
    containsSub "$".data l && l.any Char.isDigit

/-- `TradingDataExtractor._get_transaction_type`: the space-delimited markers
`' P '` / `' S '` select the kind, purchase checked first. -/
def get_transaction_type (l : List Char) : String :=
  if containsSub " P ".data l then "Purchase"
  else if containsSub " S ".data l then "Sale"
  else "Unknown"

/-- Two-letter alternation `(SP|DC|JT)` of the owner-code regex. -/
def isOwnerPair (a b : Char) : Bool :=
  (a == 'S' && b == 'P') || (a == 'D' && b == 'C') || (a == 'J' && b == 'T')

/-- `TradingDataExtractor._extract_owner_code`: the match
`re.match(r'^(SP|DC|JT)\s+(.+)', line)`, returning (group 1, group 2) on
success and `("", line)` on failure.  When everything after the code is
whitespace, the greedy `\s+` gives back one character so that `.+` can
still match it (source lines contain no newline, so `.` matches any
remaining character). -/
def extract_owner_code (line : List Char) : String × List Char :=
  match line with
  | a :: b :: rest =>
    if isOwnerPair a b then
      let ws := rest.takeWhile isPySpace
      let rest2 := rest.drop ws.length
      if ws.isEmpty then ("", line)
      else if !rest2.isEmpty then (String.mk [a, b], rest2)
      else if ws.length ≥ 2 then (String.mk [a, b], [ws.getLastD ' '])
      else ("", line)
    else ("", line)
  | _ => ("", line)

/-- Ticker character class `[A-Z0-9.]`. -/
def isTickerChar (c : Char) : Bool :=
  ('A' ≤ c && c ≤ 'Z') || c.isDigit || c == '.'

/-- `re.search(r'\(([A-Z0-9.]+)\)', line)`, returning the capture group of
the first match: the class excludes `)`, so the greedy run after a `(`
must be maximal and immediately followed by `)`; otherwise the scan
resumes at the next character. -/
def findTicker : List Char → Option (List Char)
  | [] => none
  | '(' :: rest =>
    let run := rest.takeWhile isTickerChar
    if !run.isEmpty && (rest.drop run.length).headD ' ' == ')' then some run
    else findTicker rest
  | _ :: rest => findTicker rest

/-- Step 1 of `_extract_asset_info`: scan the context lines in order for the
first one containing a ticker; return the ticker and the line's index. -/
def findTickerInLines : List (List Char) → Option (List Char × Nat)
  | [] => none
  | l :: ls =>
    match findTicker l with
    | some t => some (t, 0)
    | none => (findTickerInLines ls).map (fun p => (p.1, p.2 + 1))

/-- Head-anchored test for the date pattern `\d{2}/\d{2}/\d{4}`. -/
def dateMatchAt : List Char → Bool
  | d1 :: d2 :: s1 :: d3 :: d4 :: s2 :: d5 :: d6 :: d7 :: d8 :: _ =>
    d1.isDigit && d2.isDigit && s1 == '/' && d3.isDigit && d4.isDigit &&
      s2 == '/' && d5.isDigit && d6.isDigit && d7.isDigit && d8.isDigit
  | _ => false

/-- `re.findall(r'\d{2}/\d{2}/\d{4}', line)` scan, fuel-indexed so that the
definition is structurally recursive (each step consumes at least one
character, so `l.length` fuel always suffices; the fuel-exhaustion arm is
unreachable). -/
def extract_dates_aux : Nat → List Char → List (List Char)
  | 0, _ => []
  | _ + 1, [] => []
  | fuel + 1, c :: cs =>
    if dateMatchAt (c :: cs) then
      (c :: cs).take 10 :: extract_dates_aux fuel ((c :: cs).drop 10)
    else extract_dates_aux fuel cs

/-- `TradingDataExtractor._extract_dates`:
`re.findall(r'\d{2}/\d{2}/\d{4}', line)`, left to right, non-overlapping. -/
def extract_dates (l : List Char) : List (List Char) :=
  extract_dates_aux l.length l

/-- Amount character class `[\d,]`. -/
def isAmtChar (c : Char) : Bool := c.isDigit || c == ','

/-- `re.search(r'\$[\d,]+', line)`: the first matched token (a `$` followed
by a maximal nonempty run of digits and commas). -/
def findAmountToken : List Char → Option (List Char)
  | [] => none
  | '$' :: rest =>
    let run := rest.takeWhile isAmtChar
    if run.isEmpty then findAmountToken rest else some ('$' :: run)
  | _ :: rest => findAmountToken rest

/-- Python `int(s)` on the text left after stripping `$` and `,` from the
matched amount token (only digits can remain; the empty string fails,
modelling the `ValueError` fallback branch). -/
def pyInt (s : List Char) : Option Nat :=
  if !s.isEmpty && s.all Char.isDigit then
    some (s.foldl (fun a c => a * 10 + (c.toNat - 48)) 0)
  else none

/-- Thousands grouping on a reversed digit list (aux for `format_commas`). -/
def commaRev : List Char → List Char
  | a :: b :: c :: d :: rest => a :: b :: c :: ',' :: commaRev (d :: rest)
  | l => l

/-- Python `f"{n:,}"`. -/
def format_commas (n : Nat) : String :=
  String.mk ((commaRev (toString n).data.reverse).reverse)

/-- Range-mapping tail of `_extract_and_categorize_amount`: exact amounts
below 1000, else the first `AMOUNT_RANGES` entry whose bound is ≥ the
value, else the terminal `return "Over $50,000,000"`. -/
def categorize_value (v : Nat) : String :=
  if v < 1000 then "$" ++ format_commas v
  else
    match amount_ranges.find? (fun p => decide (v ≤ p.1)) with
    | some p => p.2
    | none => "Over $50,000,000"

/-- `TradingDataExtractor._extract_and_categorize_amount`. -/
def extract_and_categorize_amount (l : List Char) : String :=
  match findAmountToken l with
  | none => ""
  | some tok =>
    match pyInt (tok.filter (fun c => !(c == '$' || c == ','))) with
    | some v => categorize_value v
    | none => String.mk tok

/-- Character class `[\w\s\.\-&(),]` kept by `_clean_asset_name`
(ASCII `\w` is alphanumeric plus underscore). -/
def isAssetKeptChar (c : Char) : Bool :=
  c.isAlphanum || c == '_' || isPySpace c ||
    c == '.' || c == '-' || c == '&' || c == '(' || c == ')' || c == ','

/-- `re.sub(r'\s+', ' ', s)` scan, fuel-indexed so that the definition is
structurally recursive (each step consumes at least one character, so
`l.length` fuel always suffices; the fuel-exhaustion arm is unreachable). -/
def collapseWs_aux : Nat → List Char → List Char
  | 0, l => l
  | _ + 1, [] => []
  | fuel + 1, c :: cs =>
    if isPySpace c then ' ' :: collapseWs_aux fuel (cs.dropWhile isPySpace)
    else c :: collapseWs_aux fuel cs

/-- `re.sub(r'\s+', ' ', s)`: collapse each whitespace run to one space. -/
def collapseWs (l : List Char) : List Char :=
  collapseWs_aux l.length l

/-- Length of a head-anchored `\s*\[[A-Z]+\]\s*` match, if any. -/
def bracketTagLen (l : List Char) : Option Nat :=
  let ws := l.takeWhile isPySpace
  match l.drop ws.length with
  | '[' :: r2 =>
    let ups := r2.takeWhile (fun c => 'A' ≤ c && c ≤ 'Z')
    if ups.isEmpty then none
    else
      match r2.drop ups.length with
      | ']' :: r3 => some (ws.length + 1 + ups.length + 1 + (r3.takeWhile isPySpace).length)
      | _ => none
  | _ => none

/-- `re.sub(r'\s*\[[A-Z]+\]\s*', '', s)` as a left-to-right scan removing
each non-overlapping match.  Fuel-indexed: every match removes at least
three characters, so `l.length` steps always suffice. -/
def removeBracketTagsAux : Nat → List Char → List Char
  | 0, l => l
  | _ + 1, [] => []
  | fuel + 1, c :: cs =>
    match bracketTagLen (c :: cs) with
    | some n => removeBracketTagsAux fuel ((c :: cs).drop n)
    | none => c :: removeBracketTagsAux fuel cs

/-- `re.sub(r'\s*\[[A-Z]+\]\s*', '', s)`. -/
def removeBracketTags (l : List Char) : List Char :=
  removeBracketTagsAux l.length l

/-- `TradingDataExtractor._clean_asset_name`. -/
def clean_asset_name (l : List Char) : List Char :=
  if l.isEmpty then []
  else
    removeBracketTags (trimL (collapseWs (l.map (fun c => if isAssetKeptChar c then c else ' '))))

/-- First-line cutoff of `_extract_asset_info`: truncate before the first
`"P "` marker, else before the first `"S "` marker, else keep the line. -/
def cutFirstLine (l : List Char) : List Char :=
  match findSubIdx "P ".data l with
  | some i => l.take i
  | none =>
    match findSubIdx "S ".data l with
    | some i => l.take i
    | none => l

/-- Head-anchored test for `\$\d`. -/
def matchDollarDigit : List Char → Bool
  | '$' :: c :: _ => c.isDigit
  | _ => false

/-- Head-anchored test for `\$\s*\d` (the classes `\s` and `\d` are
disjoint, so the greedy whitespace run is forced). -/
def matchDollarWsDigit : List Char → Bool
  | '$' :: r => ((r.dropWhile isPySpace).headD ' ').isDigit
  | _ => false

/-- Head-anchored test for `-\s*\$`. -/
def matchDashWsDollar : List Char → Bool
  | '-' :: r => (r.dropWhile isPySpace).headD ' ' == '$'
  | _ => false

/-- Overflow-line cutoff of `_extract_asset_info`: truncate at the first
match of a date, `\$\d`, `\$\s*\d`, or `-\s*\$`, trying those patterns in
the source's order. -/
def cutOverflowLine (l : List Char) : List Char :=
  match findMatchIdx dateMatchAt l with
  | some i => l.take i
  | none =>
    match findMatchIdx matchDollarDigit l with
    | some i => l.take i
    | none =>
      match findMatchIdx matchDollarWsDigit l with
      | some i => l.take i
      | none =>
        match findMatchIdx matchDashWsDollar l with
        | some i => l.take i
        | none => l

/-- Prefix of the ticker line kept by
`re.sub(rf'\s*\({ticker}\)\s*.*$', '', line)` followed by `.strip()`:
everything before the first literal `(ticker)` occurrence, stripped (the
regex also eats the whitespace just before the parenthesis, which the
strip removes again). -/
def cutBeforeTicker (ticker : List Char) (l : List Char) : List Char :=
  match findSubIdx ('(' :: ticker ++ [')']) l with
  | some i => trimL (l.take i)
  | none => trimL l

/-- `TradingDataExtractor._extract_asset_info`: ticker plus cleaned asset
name built from the context-line prefixes (the `line` parameter is unused
in the source as well; the candidate line is `context_lines[0]`). -/
def extract_asset_info (_line : List Char) (context_lines : List (List Char)) :
    List Char × List Char :=
  match findTickerInLines context_lines with
  | none => ([], [])
  | some (ticker, ti) =>
    let asset_lines := (List.range ti).map (fun j =>
      trimL (if j == 0 then cutFirstLine (context_lines.getD j [])
             else cutOverflowLine (context_lines.getD j [])))
    let before := cutBeforeTicker ticker (context_lines.getD ti [])
    (ticker, clean_asset_name (List.intercalate " ".data (asset_lines ++ [before])))

/-- One parsed securities event (the dict built by `_parse_transaction_line`). -/
structure Transaction where
  asset : String
  ticker : String
  owner : String
  owner_code : String
  transaction_type : String
  transaction_date : String
  notification_date : String
  amount : String
deriving DecidableEq

/-- `OWNER_CODES.get(owner_code, "Self")`. -/
def owner_lookup (code : String) : String :=
  match owner_codes.find? (fun p => p.1 == code) with
  | some p => p.2
  | none => "Self"

/-- `TradingDataExtractor._parse_transaction_line` (the local variables of
the source are inlined; the validation guard and every field expression
follow the source). -/
def parse_transaction_line (line : List Char) (context_lines : List (List Char)) :
    Option Transaction :=
  if (extract_asset_info line context_lines).2 = [] ∨ (extract_dates line).length < 2 ∨
      extract_and_categorize_amount line = "" then none
  else
    some {
      asset := String.mk (trimL (extract_asset_info line context_lines).2)
      ticker := String.mk (extract_asset_info line context_lines).1
      owner := owner_lookup (extract_owner_code line).1
      owner_code := (extract_owner_code line).1
      transaction_type := get_transaction_type line
      transaction_date := String.mk ((extract_dates line).getD 0 [])
      notification_date :=
        if (extract_dates line).length > 1 then String.mk ((extract_dates line).getD 1 []) else ""
      amount := extract_and_categorize_amount line }

/-- `DailyRun._is_permanent_error` keyword list. -/
def permanent_patterns : List (List Char) :=
  ["corrupted".data, "invalid format".data, "unsupported".data,
   "malformed".data, "no transactions found".data, "file not found".data,
   "access denied".data, "invalid pdf".data, "permission denied".data]

/-- `DailyRun._is_permanent_error`: keyword containment in the lowercased
message (`Char.toLower` matches Python `.lower()` on ASCII input). -/
def is_permanent_error (msg : List Char) : Bool :=
  permanent_patterns.any (fun p => containsSub p (msg.map Char.toLower))

/-- One Filing record of the registry, with the fields the store reads or
writes (`pdf_link`, `pdf_id`, `filing_type`, `year`, `processing_status`,
`processed_at`, `has_stock_transactions`, `failed_at`, `error`); an absent
optional field is `none`. -/
structure Filing where
  pdf_link : String
  pdf_id : String
  filing_type : String
  year : String
  processing_status : Option String
  processed_at : Option String
  has_stock_transactions : Option Bool
  error : Option String
  failed_at : Option String
deriving DecidableEq

/-- One member entry of `congress_filings.json`. -/
structure Member where
  name : String
  office : String
  filings : List Filing
deriving DecidableEq

/-- The registry document `congress_filings.json` (`members` keeps the dict
insertion order as an association list). -/
structure CongressData where
  last_updated : Option String
  total_members : Nat
  total_filings : Nat
  members : List (String × Member)
deriving DecidableEq

/-- One entry of the `pending_processing` queue of `trading_data.json`. -/
structure PendingEntry where
  member_name : String
  pdf_id : String
  pdf_url : String
  filing_type : String
  year : String
  discovered_at : Option String
deriving DecidableEq

/-- The fields of a success result dict that `mark_filing_processed` reads:
`result.get("error")` and `result.get("transaction_count")` (Python `get`
defaults are applied at the use sites). -/
structure ResultData where
  error : Option String
  transaction_count : Option Nat
deriving DecidableEq

/-- A value stored in `processed_filings`: either a success result dict
stored verbatim, or the `{processed_at, result: {error, permanent: True}}`
record written on the permanent-error path. -/
inductive LedgerValue where
  | res (r : ResultData)
  | perm_error (processed_at : String) (msg : String)
deriving DecidableEq

/-- The `summary` sub-dict of `trading_data.json`. -/
structure Summary where
  total_pdfs : Nat
  processed_pdfs : Nat
  pending_pdfs : Nat
deriving DecidableEq

/-- The ledger document `trading_data.json` (`processed_filings` keeps the
dict insertion order as an association list). -/
structure TradingData where
  last_updated : String
  pending_processing : List PendingEntry
  processed_filings : List (String × LedgerValue)
  summary : Summary
deriving DecidableEq

/-- `DataManager.save_congress_data`: recompute `total_members` and
`total_filings` from the members map and stamp `last_updated` (the atomic
file write itself is modelled by `atomic_write`; the returned record is
the state the write persists). -/
def save_congress_data (now : String) (d : CongressData) : CongressData :=
  { d with
    total_members := d.members.length
    total_filings := (d.members.map (fun p => p.2.filings.length)).sum
    last_updated := some now }

/-- `DataManager.save_trading_data`: recompute the summary's
`processed_pdfs` / `pending_pdfs` counts and stamp `last_updated`. -/
def save_trading_data (now : String) (d : TradingData) : TradingData :=
  { d with
    summary := { d.summary with
      processed_pdfs := d.processed_filings.length
      pending_pdfs := d.pending_processing.length }
    last_updated := now }

/-- Python dict assignment `d[k] = v` on an association list: replace in
place when the key exists, else append. -/
def dict_insert (k : String) (v : LedgerValue) :
    List (String × LedgerValue) → List (String × LedgerValue)
  | [] => [(k, v)]
  | (k', v') :: rest =>
    if k' == k then (k', v) :: rest else (k', v') :: dict_insert k v rest

/-- `str.replace(".pdf", "")`: remove every (non-overlapping, left to
right) `".pdf"` occurrence. -/
def remove_pdf_ext : List Char → List Char
  | '.' :: 'p' :: 'd' :: 'f' :: rest => remove_pdf_ext rest
  | c :: cs => c :: remove_pdf_ext cs
  | [] => []

/-- `pdf_url.split("/")[-1]` (accumulator holds the current segment,
reversed). -/
def last_segment_aux (cur : List Char) : List Char → List Char
  | [] => cur.reverse
  | c :: cs => if c == '/' then last_segment_aux [] cs else last_segment_aux (c :: cur) cs

/-- `pdf_url.split("/")[-1]`. -/
def last_segment (l : List Char) : List Char := last_segment_aux [] l

/-- Document id derived from the link in `mark_filing_processed`:
`pdf_url.split("/")[-1].replace(".pdf", "")`. -/
def filing_no (pdf_url : String) : String :=
  String.mk (remove_pdf_ext (last_segment pdf_url.data))

/-- Python falsiness of `result.get("error")` (`None`, absent, or `""`). -/
def falsy_opt_str : Option String → Bool
  | none => true
  | some s => s.isEmpty

/-- Mutation applied by `mark_filing_processed` to the Filing it locates:
set `processing_status`/`processed_at`, and when the result dict is truthy
with no error, set `has_stock_transactions` from `transaction_count`
(`result : Option ResultData` models the dict's truthiness). -/
def apply_processed (now : String) (result : Option ResultData) (f : Filing) : Filing :=
  match result with
  | some r =>
    if falsy_opt_str r.error then
      { f with processing_status := some "processed", processed_at := some now,
               has_stock_transactions := some (decide (r.transaction_count.getD 0 > 0)) }
    else { f with processing_status := some "processed", processed_at := some now }
  | none => { f with processing_status := some "processed", processed_at := some now }

/-- Mutation applied by `mark_filing_error` (permanent path) to the Filing
it locates. -/
def apply_failed (now msg : String) (f : Filing) : Filing :=
  { f with processing_status := some "failed", failed_at := some now, error := some msg }

/-- The inner `for filing in member_data["filings"]` loop with its `break`:
update the first element satisfying `p`, reporting whether one was found. -/
def update_first {α : Type} (p : α → Bool) (g : α → α) : List α → List α × Bool
  | [] => ([], false)
  | f :: fs =>
    if p f then (g f :: fs, true)
    else (f :: (update_first p g fs).1, (update_first p g fs).2)

/-- The outer `for member_key, member_data in members.items()` loop with
its `congress_updated` break: update the first matching Filing across the
member list. -/
def update_first_member (p : Filing → Bool) (g : Filing → Filing) :
    List (String × Member) → List (String × Member) × Bool
  | [] => ([], false)
  | (k, m) :: rest =>
    if (update_first p g m.filings).2 then
      ((k, { m with filings := (update_first p g m.filings).1 }) :: rest, true)
    else
      ((k, m) :: (update_first_member p g rest).1, (update_first_member p g rest).2)

/-- `DataManager.mark_filing_processed` as a pure transformer of the two
persisted documents: update the first Filing whose `pdf_link` matches,
drop the matching pending-queue entries, store the result dict under the
derived document id when the dict is truthy, and run the two save paths
(the registry is only saved when a Filing was updated). -/
def mark_filing_processed (now pdf_url : String) (result : Option ResultData)
    (congress : CongressData) (trading : TradingData) : CongressData × TradingData :=
  let u := update_first_member (fun f => f.pdf_link == pdf_url) (apply_processed now result)
    congress.members
  ((if u.2 then save_congress_data now { congress with members := u.1 } else congress),
   save_trading_data now
     (match result with
      | some r =>
        { trading with
          pending_processing :=
            trading.pending_processing.filter (fun item => item.pdf_url != pdf_url)
          processed_filings :=
            dict_insert (filing_no pdf_url) (.res r) trading.processed_filings }
      | none =>
        { trading with
          pending_processing :=
            trading.pending_processing.filter (fun item => item.pdf_url != pdf_url) }))

/-- `DataManager.mark_filing_error` as a pure transformer; the third
component collects the console output (the transient path only prints).
On the permanent path the entry is dequeued, an error record is stored in
`processed_filings` under `pdf_url`, and the located Filing is marked
failed; on the transient path the documents are saved unchanged apart from
the summary/timestamp refresh of `save_trading_data`. -/
def mark_filing_error (now pdf_url error_message : String) (is_permanent : Bool)
    (congress : CongressData) (trading : TradingData) :
    CongressData × TradingData × List String :=
  if is_permanent then
    let u := update_first_member (fun f => f.pdf_link == pdf_url) (apply_failed now error_message)
      congress.members
    ((if u.2 then save_congress_data now { congress with members := u.1 } else congress),
     save_trading_data now
       { trading with
         pending_processing :=
           trading.pending_processing.filter (fun item => item.pdf_url != pdf_url)
         processed_filings :=
           dict_insert pdf_url (.perm_error now error_message) trading.processed_filings },
     [])
  else
    (congress, save_trading_data now trading,
     ["Temporary error for " ++ pdf_url ++ ": " ++ error_message ++ " (will retry)"])

/-- Does a Filing need processing: no `processing_status`, or `"pending"`. -/
def needs_processing (f : Filing) : Bool :=
  f.processing_status.isNone || f.processing_status == some "pending"

/-- The denormalized record built by `identify_pending_filings` for each
pending Filing. -/
structure FilingInfo where
  member_key : String
  member_name : String
  pdf_url : String
  pdf_id : String
  filing_type : String
  year : String
deriving DecidableEq

/-- All Filings of the registry, in member order. -/
def all_filings : List (String × Member) → List Filing
  | [] => []
  | (_, m) :: rest => m.filings ++ all_filings rest

/-- `FilingStatusManager.identify_pending_filings`, member by member. -/
def identify_aux : List (String × Member) → List FilingInfo
  | [] => []
  | (k, m) :: rest =>
    (m.filings.filter needs_processing).map (fun f =>
      { member_key := k, member_name := m.name, pdf_url := f.pdf_link,
        pdf_id := f.pdf_id, filing_type := f.filing_type, year := f.year }) ++
      identify_aux rest

/-- `FilingStatusManager.identify_pending_filings`. -/
def identify_pending_filings (c : CongressData) : List FilingInfo :=
  identify_aux c.members

/-- Failure point during a `DataManager._atomic_write` call. -/
inductive WriteStep where
  | ok
  | fail_create_temp
  | fail_dump
  | fail_close
  | fail_replace
deriving DecidableEq

/-- Observable outcome of one `_atomic_write` call: the committed content
of the target file, whether this call's temporary file is still on disk
afterwards, and whether the exception propagated to the caller. -/
structure WriteOutcome where
  committed : Option String
  temp_left : Bool
  raised : Bool
deriving DecidableEq

/-- `DataManager._atomic_write`, indexed by the failure point; each case is
a hand trace of the source.
* `ok`: the temp file is written, `os.replace` installs it, nothing is
  left behind.
* `fail_create_temp`: `NamedTemporaryFile(...)` itself raises; no file was
  created, `temp_path` is unbound so the `'temp_path' in locals()` guard
  skips cleanup, and `raise e` re-raises.
* `fail_dump`: `NamedTemporaryFile(delete=False)` has already created the
  file on disk, `json.dump` raises before `temp_path = Path(tmp_file.name)`
  runs, so the `'temp_path' in locals()` guard is false and the temp file
  is left on disk; the target is untouched and `raise e` re-raises.
* `fail_close`: the dump succeeded and `temp_path` is bound; closing the
  `with` block raises; the handler sees `temp_path` bound and existing,
  unlinks it, and re-raises.
* `fail_replace`: `os.replace` raises; the handler unlinks the temp file
  and re-raises; the target keeps its previous content. -/
def atomic_write (data : String) (committed : Option String) : WriteStep → WriteOutcome
  | .ok => { committed := some data, temp_left := false, raised := false }
  | .fail_create_temp => { committed := committed, temp_left := false, raised := true }
  | .fail_dump => { committed := committed, temp_left := true, raised := true }
  | .fail_close => { committed := committed, temp_left := false, raised := true }
  | .fail_replace => { committed := committed, temp_left := false, raised := true }

/-- JSON values, for the persisted-document validation model. -/
inductive JValue where
  | jnull
  | jbool (b : Bool)
  | jnum (n : Int)
  | jstr (s : String)
  | jarr (items : List JValue)
  | jobj (fields : List (String × JValue))

/-- Exceptions that can be raised inside the `try` body of
`load_congress_data`. -/
inductive PyExc where
  | json_decode
  | value_exc (msg : String)
  | attribute_exc
  | type_exc
deriving DecidableEq

/-- Errors surfaced to the caller of `load_congress_data`. -/
inductive LoadErr where
  | value_err (msg : String)
  | runtime_err (msg : String)
deriving DecidableEq

/-- Python `k in d` on a JSON object's field list. -/
def jHasKey (fields : List (String × JValue)) (k : String) : Bool :=
  fields.any (fun p => p.1 == k)

/-- Python `d.get(k, default)` on a JSON object's field list. -/
def jGetD (fields : List (String × JValue)) (k : String) (d : JValue) : JValue :=
  match fields.find? (fun p => p.1 == k) with
  | some p => p.2
  | none => d

/-- Python dict assignment `d[k] = v` on a JSON object's field list. -/
def jSet (k : String) (v : JValue) : List (String × JValue) → List (String × JValue)
  | [] => [(k, v)]
  | (k', v') :: rest =>
    if k' == k then (k', v) :: rest else (k', v') :: jSet k v rest

/-- Python `len()` (sized values only; others raise `TypeError`). -/
def pyLen : JValue → Except PyExc Nat
  | .jarr items => .ok items.length
  | .jobj fields => .ok fields.length
  | .jstr s => .ok s.length
  | _ => .error .type_exc

/-- Python `.values()` (dicts only; anything else raises `AttributeError`). -/
def pyValues : JValue → Except PyExc (List JValue)
  | .jobj fields => .ok (fields.map (fun p => p.2))
  | _ => .error .attribute_exc

/-- Python `member.get("filings", [])` (dicts only). -/
def pyGetD : JValue → String → JValue → Except PyExc JValue
  | .jobj fields, k, d => .ok (jGetD fields k d)
  | _, _, _ => .error .attribute_exc

/-- `sum(len(member.get("filings", [])) for member in members.values())`. -/
def sumFilings : List JValue → Except PyExc Nat
  | [] => .ok 0
  | m :: rest => do
    let fl ← pyGetD m "filings" (.jarr [])
    let n ← pyLen fl
    let s ← sumFilings rest
    .ok (n + s)

/-- Body of the `try` block of `load_congress_data`, applied to the parsed
JSON document: the structure check (`isinstance(data, dict)` and
`"members" in data`) raises `ValueError`, then the missing
`total_members` / `total_filings` fields are backfilled. -/
def load_congress_try (v : JValue) : Except PyExc JValue :=
  match v with
  | .jobj fields =>
    if !jHasKey fields "members" then .error (.value_exc "Invalid congress data structure")
    else do
      let fields1 ←
        if jHasKey fields "total_members" then pure fields
        else do
          let n ← pyLen (jGetD fields "members" (.jobj []))
          pure (jSet "total_members" (.jnum n) fields)
      let fields2 ←
        if jHasKey fields1 "total_filings" then pure fields1
        else do
          let vals ← pyValues (jGetD fields1 "members" (.jobj []))
          let s ← sumFilings vals
          pure (jSet "total_filings" (.jnum s) fields1)
      pure (.jobj fields2)
  | _ => .error (.value_exc "Invalid congress data structure")

/-- State of the persisted registry file as seen by `load_congress_data`:
absent, present but not parseable as JSON, or a parsed JSON value. -/
inductive RawFile where
  | missing
  | not_json
  | json (v : JValue)

/-- The default document returned when the registry file does not exist. -/
def empty_congress_json : JValue :=
  .jobj [("last_updated", .jnull), ("total_members", .jnum 0),
         ("total_filings", .jnum 0), ("members", .jobj [])]

/-- `DataManager.load_congress_data` with its `except` dispatch:
`json.JSONDecodeError` is re-raised as
`ValueError("Invalid JSON format in congress data file")`, and every other
exception (including the `ValueError` raised by the structure check inside
the `try` body, which the `except json.JSONDecodeError` clause does not
catch) is re-raised as `RuntimeError("Failed to load congress data")`. -/
def load_congress_data (file : RawFile) : Except LoadErr JValue :=
  match file with
  | .missing => .ok empty_congress_json
  | .not_json => .error (.value_err "Invalid JSON format in congress data file")
  | .json v =>
    match load_congress_try v with
    | .ok d => .ok d
    | .error .json_decode => .error (.value_err "Invalid JSON format in congress data file")
    | .error _ => .error (.runtime_err "Failed to load congress data")

/-- Is the surfaced error of the `ValueError` class (the spec's
ValidationError)? -/
def is_value_err : Except LoadErr JValue → Bool
  | .error (.value_err _) => true
  | _ => false

/-- The error message recorded in a ledger value, if any. -/
def ledger_error_msg : LedgerValue → Option String
  | .res r => r.error
  | .perm_error _ m => some m

theorem startsWithL_iff (n : List Char) :
    ∀ h, startsWithL n h = true ↔ ∃ post, h = n ++ post := by
  induction n with
  | nil =>
    intro h
    simp [startsWithL]
  | cons a as ih =>
    intro h
    cases h with
    | nil =>
      simp [startsWithL]
    | cons b bs =>
      simp only [startsWithL, Bool.and_eq_true, beq_iff_eq, ih, List.cons_append,
        List.cons.injEq]
      constructor
      · rintro ⟨rfl, post, rfl⟩
        exact ⟨post, rfl, rfl⟩
      · rintro ⟨post, rfl, rfl⟩
        exact ⟨rfl, post, rfl⟩

theorem containsSub_iff (n : List Char) :
    ∀ h, containsSub n h = true ↔ ∃ pre post, h = pre ++ n ++ post := by
  intro h
  induction h with
  | nil =>
    rw [show containsSub n [] = startsWithL n [] from rfl, startsWithL_iff]
    constructor
    · rintro ⟨post, hp⟩
      exact ⟨[], post, by simpa using hp⟩
    · rintro ⟨pre, post, hp⟩
      rcases List.append_eq_nil.mp hp.symm with ⟨h1, h2⟩
      rcases List.append_eq_nil.mp h1 with ⟨h3, h4⟩
      exact ⟨post, by simp [h4, h2]⟩
  | cons c cs ih =>
    rw [show containsSub n (c :: cs) = (startsWithL n (c :: cs) || containsSub n cs) from rfl]
    simp only [Bool.or_eq_true, startsWithL_iff, ih]
    constructor
    · rintro (⟨post, hp⟩ | ⟨pre, post, hp⟩)
      · exact ⟨[], post, by simpa using hp⟩
      · exact ⟨c :: pre, post, by simp [hp]⟩
    · rintro ⟨pre, post, hp⟩
      cases pre with
      | nil => exact Or.inl ⟨post, by simpa using hp⟩
      | cons p ps =>
        simp only [List.cons_append, List.cons.injEq] at hp
        exact Or.inr ⟨ps, post, hp.2⟩

/-- C9: the permanence classifier returns permanent exactly when the
lowercased message contains one of the fixed permanence keywords; any
message containing `"file not found"` is permanent, and `"timeout"`
(absent from the keyword set) is classified transient. -/
theorem c9_permanence_classifier :
    (∀ msg : List Char, is_permanent_error msg = true ↔
      ∃ p ∈ permanent_patterns, ∃ pre post, msg.map Char.toLower = pre ++ p ++ post) ∧
    (∀ msg : List Char, (∃ pre post, msg = pre ++ "file not found".data ++ post) →
      is_permanent_error msg = true) ∧
    is_permanent_error "timeout".data = false := by
  have hmain : ∀ msg : List Char, is_permanent_error msg = true ↔
      ∃ p ∈ permanent_patterns, ∃ pre post, msg.map Char.toLower = pre ++ p ++ post := by
    intro msg
    rw [is_permanent_error, List.any_eq_true]
    constructor
    · rintro ⟨p, hp, hc⟩
      exact ⟨p, hp, (containsSub_iff p _).mp hc⟩
    · rintro ⟨p, hp, hc⟩
      exact ⟨p, hp, (containsSub_iff p _).mpr hc⟩
  refine ⟨hmain, ?_, by decide⟩
  rintro msg ⟨pre, post, rfl⟩
  refine (hmain _).mpr ⟨"file not found".data, by decide, pre.map Char.toLower,
    post.map Char.toLower, ?_⟩
  have hfix : ("file not found".data).map Char.toLower = "file not found".data := by decide
  simp [List.map_append, hfix]

theorem c9_witness : is_permanent_error "PDF file not found on server".data = true :=
  c9_permanence_classifier.2.1 "PDF file not found on server".data
    ⟨"PDF ".data, " on server".data, by decide⟩

/-- C2: the atomic write evaluated at the failing input.  A failure during
`json.dump` (after `NamedTemporaryFile(delete=False)` has created the file
but before `temp_path` is bound) leaves the committed content intact and
propagates the error, but leaves the temporary artifact on disk, because
the `'temp_path' in locals()` guard skips the cleanup; a failure at the
later `os.replace` step does remove the artifact. -/
theorem c2_dump_failure_leaves_temp :
    (atomic_write "new" (some "old") .fail_dump).committed = some "old" ∧
    (atomic_write "new" (some "old") .fail_dump).raised = true ∧
    (atomic_write "new" (some "old") .fail_dump).temp_left = true ∧
    (atomic_write "new" (some "old") .fail_replace).temp_left = false := by
  decide

/-- C8 fails as stated: for the candidate line `" P S $1"` both
space-delimited markers are present; the source checks the purchase marker
first, so the assigned kind is `"Purchase"`, while the claim also requires
`"Sale"` whenever a sale marker is present. -/
theorem c8_counterexample :
    is_transaction_line " P S $1".data = true ∧
    containsSub " S ".data " P S $1".data = true ∧
    get_transaction_type " P S $1".data ≠ "Sale" := by
  refine ⟨by decide, by decide, by decide⟩

/-- C8 amended: on a candidate line, a space-delimited purchase marker
selects `"Purchase"` (taking precedence), a sale marker selects `"Sale"`
when no purchase marker is present, and `"Unknown"` is assigned exactly
when neither marker is present. -/
theorem c8_amended_kind (l : List Char) (_hc : is_transaction_line l = true) :
    (containsSub " P ".data l = true → get_transaction_type l = "Purchase") ∧
    (containsSub " P ".data l = false → containsSub " S ".data l = true →
      get_transaction_type l = "Sale") ∧
    (get_transaction_type l = "Unknown" ↔
      containsSub " P ".data l = false ∧ containsSub " S ".data l = false) := by
  refine ⟨?_, ?_, ?_⟩
  · intro h
    simp [get_transaction_type, h]
  · intro h1 h2
    simp [get_transaction_type, h1, h2]
  · by_cases h1 : containsSub " P ".data l <;> by_cases h2 : containsSub " S ".data l <;>
      simp [get_transaction_type, h1, h2]

theorem c8_witness :
    get_transaction_type "AA P 01/02/2024 $500".data = "Purchase" ∧
    get_transaction_type "AB S 01/02/2024 $500".data = "Sale" :=
  ⟨(c8_amended_kind "AA P 01/02/2024 $500".data (by decide)).1 (by decide),
   (c8_amended_kind "AB S 01/02/2024 $500".data (by decide)).2.1 (by decide) (by decide)⟩

/-- C4 fails as stated: a persisted document that is valid JSON but lacks
the required `members` structure surfaces as `RuntimeError`, not as the
`ValueError` validation class, because the inner
`raise ValueError("Invalid congress data structure")` is caught by the
`except Exception` clause and re-wrapped. -/
theorem c4_counterexample :
    is_value_err (load_congress_data (.json (.jobj [("foo", .jnum 1)]))) = false ∧
    load_congress_data (.json (.jobj [("foo", .jnum 1)])) =
      .error (.runtime_err "Failed to load congress data") :=
  ⟨rfl, rfl⟩

/-- C4 amended: content that is not JSON at all raises the ValueError
class, but structurally malformed valid JSON (an object without a
`members` key, or a non-object document) raises `RuntimeError` wrapping
the validation failure. -/
theorem c4_amended :
    (load_congress_data .not_json =
      .error (.value_err "Invalid JSON format in congress data file")) ∧
    (∀ fields, jHasKey fields "members" = false →
      load_congress_data (.json (.jobj fields)) =
        .error (.runtime_err "Failed to load congress data")) ∧
    (∀ v : JValue, (∀ fields, v ≠ .jobj fields) →
      load_congress_data (.json v) =
        .error (.runtime_err "Failed to load congress data")) := by
  refine ⟨rfl, ?_, ?_⟩
  · intro fields h
    simp [load_congress_data, load_congress_try, h]
  · intro v hv
    cases v with
    | jobj fields => exact absurd rfl (hv fields)
    | jnull => rfl
    | jbool b => rfl
    | jnum n => rfl
    | jstr s => rfl
    | jarr items => rfl

theorem c4_witness :
    load_congress_data (.json (.jobj [])) =
      .error (.runtime_err "Failed to load congress data") ∧
    load_congress_data (.json (.jarr [])) =
      .error (.runtime_err "Failed to load congress data") :=
  ⟨c4_amended.2.1 [] rfl,
   c4_amended.2.2 (.jarr []) (fun _ h => JValue.noConfusion h)⟩

theorem categorize_value_buckets (v : Nat) :
    (v < 1000 → categorize_value v = "$" ++ format_commas v) ∧
    (1000 ≤ v → v ≤ 15000 → categorize_value v = "$1,001 - $15,000") ∧
    (15000 < v → v ≤ 50000 → categorize_value v = "$15,001 - $50,000") ∧
    (50000 < v → v ≤ 100000 → categorize_value v = "$50,001 - $100,000") ∧
    (100000 < v → v ≤ 250000 → categorize_value v = "$100,001 - $250,000") ∧
    (250000 < v → v ≤ 500000 → categorize_value v = "$250,001 - $500,000") ∧
    (500000 < v → v ≤ 1000000 → categorize_value v = "$500,001 - $1,000,000") ∧
    (1000000 < v → v ≤ 5000000 → categorize_value v = "$1,000,001 - $5,000,000") ∧
    (5000000 < v → v ≤ 25000000 → categorize_value v = "$5,000,001 - $25,000,000") ∧
    (25000000 < v → v ≤ 50000000 → categorize_value v = "$25,000,001 - $50,000,000") ∧
    (50000000 < v → categorize_value v = "Over $50,000,000") := by
  unfold categorize_value amount_ranges
  refine ⟨?_, ?_, ?_, ?_, ?_, ?_, ?_, ?_, ?_, ?_, ?_⟩
  · intro h
    rw [if_pos h]
  · intro h1 h2
    rw [if_neg (by omega)]
    rw [List.find?_cons_of_pos _ (by simp only [decide_eq_true_eq]; omega)]
  · intro h1 h2
    rw [if_neg (by omega)]
    iterate 1 rw [List.find?_cons_of_neg _ (by simp only [decide_eq_true_eq]; omega)]
    rw [List.find?_cons_of_pos _ (by simp only [decide_eq_true_eq]; omega)]
  · intro h1 h2
    rw [if_neg (by omega)]
    iterate 2 rw [List.find?_cons_of_neg _ (by simp only [decide_eq_true_eq]; omega)]
    rw [List.find?_cons_of_pos _ (by simp only [decide_eq_true_eq]; omega)]
  · intro h1 h2
    rw [if_neg (by omega)]
    iterate 3 rw [List.find?_cons_of_neg _ (by simp only [decide_eq_true_eq]; omega)]
    rw [List.find?_cons_of_pos _ (by simp only [decide_eq_true_eq]; omega)]
  · intro h1 h2
    rw [if_neg (by omega)]
    iterate 4 rw [List.find?_cons_of_neg _ (by simp only [decide_eq_true_eq]; omega)]
    rw [List.find?_cons_of_pos _ (by simp only [decide_eq_true_eq]; omega)]
  · intro h1 h2
    rw [if_neg (by omega)]
    iterate 5 rw [List.find?_cons_of_neg _ (by simp only [decide_eq_true_eq]; omega)]
    rw [List.find?_cons_of_pos _ (by simp only [decide_eq_true_eq]; omega)]
  · intro h1 h2
    rw [if_neg (by omega)]
    iterate 6 rw [List.find?_cons_of_neg _ (by simp only [decide_eq_true_eq]; omega)]
    rw [List.find?_cons_of_pos _ (by simp only [decide_eq_true_eq]; omega)]
  · intro h1 h2
    rw [if_neg (by omega)]
    iterate 7 rw [List.find?_cons_of_neg _ (by simp only [decide_eq_true_eq]; omega)]
    rw [List.find?_cons_of_pos _ (by simp only [decide_eq_true_eq]; omega)]
  · intro h1 h2
    rw [if_neg (by omega)]
    iterate 8 rw [List.find?_cons_of_neg _ (by simp only [decide_eq_true_eq]; omega)]
    rw [List.find?_cons_of_pos _ (by simp only [decide_eq_true_eq]; omega)]
  · intro h1
    rw [if_neg (by omega)]
    by_cases hv : v ≤ 100000000
    · iterate 9 rw [List.find?_cons_of_neg _ (by simp only [decide_eq_true_eq]; omega)]
      rw [List.find?_cons_of_pos _ (by simp only [decide_eq_true_eq]; omega)]
    · iterate 10 rw [List.find?_cons_of_neg _ (by simp only [decide_eq_true_eq]; omega)]
      rfl

/-- C6: for every line with a currency-amount token, the amount
categorizer returns the exact formatted amount for values below 1000, the
range string of the smallest bucket bound that is ≥ the value for the nine
ascending bounds up to 50,000,000, the open-ended `"Over $50,000,000"`
label for values above 50,000,000, and the raw matched token verbatim when
the token's numeric text is unparsable. -/
theorem c6_amount_bucketing :
    (∀ l tok : List Char, findAmountToken l = some tok →
      ∀ v : Nat, pyInt (tok.filter (fun c => !(c == '$' || c == ','))) = some v →
        ((v < 1000 → extract_and_categorize_amount l = "$" ++ format_commas v) ∧
         (1000 ≤ v → v ≤ 15000 → extract_and_categorize_amount l = "$1,001 - $15,000") ∧
         (15000 < v → v ≤ 50000 → extract_and_categorize_amount l = "$15,001 - $50,000") ∧
         (50000 < v → v ≤ 100000 → extract_and_categorize_amount l = "$50,001 - $100,000") ∧
         (100000 < v → v ≤ 250000 → extract_and_categorize_amount l = "$100,001 - $250,000") ∧
         (250000 < v → v ≤ 500000 → extract_and_categorize_amount l = "$250,001 - $500,000") ∧
         (500000 < v → v ≤ 1000000 → extract_and_categorize_amount l = "$500,001 - $1,000,000") ∧
         (1000000 < v → v ≤ 5000000 → extract_and_categorize_amount l = "$1,000,001 - $5,000,000") ∧
         (5000000 < v → v ≤ 25000000 → extract_and_categorize_amount l = "$5,000,001 - $25,000,000") ∧
         (25000000 < v → v ≤ 50000000 → extract_and_categorize_amount l = "$25,000,001 - $50,000,000") ∧
         (50000000 < v → extract_and_categorize_amount l = "Over $50,000,000"))) ∧
    (∀ l tok : List Char, findAmountToken l = some tok →
      pyInt (tok.filter (fun c => !(c == '$' || c == ','))) = none →
        extract_and_categorize_amount l = String.mk tok) := by
  constructor
  · intro l tok htok v hv
    have he : extract_and_categorize_amount l = categorize_value v := by
      simp only [extract_and_categorize_amount, htok, hv]
    simp only [he]
    exact categorize_value_buckets v
  · intro l tok htok hnone
    simp only [extract_and_categorize_amount, htok, hnone]

theorem c6_witness :
    extract_and_categorize_amount "see $999 x".data = "$999" ∧
    extract_and_categorize_amount "$15,000".data = "$1,001 - $15,000" ∧
    extract_and_categorize_amount "$15,001".data = "$15,001 - $50,000" ∧
    extract_and_categorize_amount "$100,000,001".data = "Over $50,000,000" ∧
    extract_and_categorize_amount "x $, y".data = "$," :=
  ⟨((c6_amount_bucketing.1 "see $999 x".data "$999".data (by decide) 999
      (by decide)).1 (by omega)).trans (by decide),
   (c6_amount_bucketing.1 "$15,000".data "$15,000".data (by decide) 15000
      (by decide)).2.1 (by omega) (by omega),
   (c6_amount_bucketing.1 "$15,001".data "$15,001".data (by decide) 15001
      (by decide)).2.2.1 (by omega) (by omega),
   (c6_amount_bucketing.1 "$100,000,001".data "$100,000,001".data (by decide) 100000001
      (by decide)).2.2.2.2.2.2.2.2.2.2 (by omega),
   (c6_amount_bucketing.2 "x $, y".data "$,".data (by decide) (by decide)).trans (by decide)⟩

theorem asset_empty_of_no_ticker (line : List Char) (ctx : List (List Char))
    (h : findTickerInLines ctx = none) : extract_asset_info line ctx = ([], []) := by
  simp [extract_asset_info, h]

/-- C7: a candidate line yields a Transaction record exactly when a ticker
is found in the context window, the extracted asset name is non-empty, the
candidate line has at least two date tokens, and an amount string was
produced; otherwise no record at all is produced. -/
theorem c7_validation_iff (line : List Char) (context_lines : List (List Char)) :
    (parse_transaction_line line context_lines).isSome = true ↔
      ((findTickerInLines context_lines).isSome = true ∧
        (extract_asset_info line context_lines).2 ≠ [] ∧
        2 ≤ (extract_dates line).length ∧
        extract_and_categorize_amount line ≠ "") := by
  unfold parse_transaction_line
  by_cases hcond : ((extract_asset_info line context_lines).2 = [] ∨
      (extract_dates line).length < 2 ∨ extract_and_categorize_amount line = "")
  · rw [if_pos hcond]
    simp only [Option.isSome_none, Bool.false_eq_true, false_iff]
    rintro ⟨h1, h2, h3, h4⟩
    rcases hcond with h | h | h
    · exact h2 h
    · omega
    · exact h4 h
  · rw [if_neg hcond]
    push_neg at hcond
    obtain ⟨h1, h2, h3⟩ := hcond
    simp only [Option.isSome_some, true_iff]
    refine ⟨?_, h1, by omega, h3⟩
    rcases ht : findTickerInLines context_lines with _ | p
    · exact absurd (asset_empty_of_no_ticker line context_lines ht ▸ rfl) h1
    · rfl

theorem owner_lookup_cases (code : String) :
    owner_lookup code = "Self" ∨ owner_lookup code = "Spouse" ∨
      owner_lookup code = "Dependent Child" ∨ owner_lookup code = "Joint" := by
  unfold owner_lookup
  rcases hf : owner_codes.find? (fun p => p.1 == code) with _ | p
  · rw [hf]
    exact Or.inl rfl
  · rw [hf]
    have hm := List.mem_of_find?_eq_some hf
    simp only [owner_codes, List.mem_cons, List.not_mem_nil, or_false] at hm
    rcases hm with rfl | rfl | rfl
    · exact Or.inr (Or.inl rfl)
    · exact Or.inr (Or.inr (Or.inl rfl))
    · exact Or.inr (Or.inr (Or.inr rfl))

theorem extract_dates_aux_ne_nil : ∀ (fuel : Nat) (l : List Char),
    ∀ d ∈ extract_dates_aux fuel l, d ≠ []
  | 0, l, d, hd => by simp [extract_dates_aux] at hd
  | _ + 1, [], d, hd => by simp [extract_dates_aux] at hd
  | fuel + 1, c :: cs, d, hd => by
    rw [extract_dates_aux] at hd
    by_cases hm : dateMatchAt (c :: cs)
    · rw [if_pos hm] at hd
      rcases List.mem_cons.mp hd with rfl | hmem
      · simp
      · exact extract_dates_aux_ne_nil fuel ((c :: cs).drop 10) d hmem
    · rw [if_neg hm] at hd
      exact extract_dates_aux_ne_nil fuel cs d hd

theorem extract_dates_ne_nil (l : List Char) : ∀ d ∈ extract_dates l, d ≠ [] :=
  extract_dates_aux_ne_nil l.length l

/-- C10: every emitted Transaction has an owner drawn from
Self/Spouse/Dependent Child/Joint, defaulting to Self when the line
carries no recognized owner prefix, and a non-empty notification date
equal to the second date token of the candidate line. -/
theorem c10_owner_and_dates (line : List Char) (context_lines : List (List Char))
    (t : Transaction) (h : parse_transaction_line line context_lines = some t) :
    (t.owner = "Self" ∨ t.owner = "Spouse" ∨ t.owner = "Dependent Child" ∨
      t.owner = "Joint") ∧
    ((extract_owner_code line).1 = "" → t.owner = "Self") ∧
    t.notification_date = String.mk ((extract_dates line).getD 1 []) ∧
    t.notification_date ≠ "" := by
  unfold parse_transaction_line at h
  by_cases hcond : ((extract_asset_info line context_lines).2 = [] ∨
      (extract_dates line).length < 2 ∨ extract_and_categorize_amount line = "")
  · rw [if_pos hcond] at h
    cases h
  · rw [if_neg hcond] at h
    push_neg at hcond
    obtain ⟨h1, h2, h3⟩ := hcond
    injection h with h
    subst h
    have hif : ((extract_dates line).length > 1) := by omega
    refine ⟨owner_lookup_cases _, ?_, ?_, ?_⟩
    · intro hoc
      show owner_lookup (extract_owner_code line).1 = "Self"
      rw [hoc]
      decide
    · show (if (extract_dates line).length > 1
          then String.mk ((extract_dates line).getD 1 []) else "") = _
      rw [if_pos hif]
    · show (if (extract_dates line).length > 1
          then String.mk ((extract_dates line).getD 1 []) else "") ≠ ""
      rw [if_pos hif]
      have hlen : 1 < (extract_dates line).length := by omega
      have hdm : (extract_dates line).getD 1 [] ∈ extract_dates line := by
        rw [List.getD_eq_getElem?_getD, List.getElem?_eq_getElem hlen]
        simp only [Option.getD_some]
        exact List.getElem_mem hlen
      have hne := extract_dates_ne_nil line _ hdm
      intro hmk
      exact hne (by simpa using congrArg String.data hmk)

/-- Concrete inputs for the C10 witness. -/
def sample_line : List Char := "A (B) P 01/02/2024 01/05/2024 $5".data

/-- The record `parse_transaction_line` produces on `sample_line`. -/
def sample_tx : Transaction :=
  { asset := "A", ticker := "B", owner := "Self", owner_code := "",
    transaction_type := "Purchase", transaction_date := "01/02/2024",
    notification_date := "01/05/2024", amount := "$5" }

theorem c10_witness :
    (sample_tx.owner = "Self" ∨ sample_tx.owner = "Spouse" ∨
      sample_tx.owner = "Dependent Child" ∨ sample_tx.owner = "Joint") ∧
    ((extract_owner_code sample_line).1 = "" → sample_tx.owner = "Self") ∧
    sample_tx.notification_date = String.mk ((extract_dates sample_line).getD 1 []) ∧
    sample_tx.notification_date ≠ "" :=
  c10_owner_and_dates sample_line [sample_line] sample_tx (by decide)

theorem apply_processed_status (now : String) (r : Option ResultData) (f : Filing) :
    (apply_processed now r f).processing_status = some "processed" := by
  rcases r with _ | r
  · rfl
  · by_cases h : falsy_opt_str r.error = true <;> simp [apply_processed, h]

theorem update_first_snd_false {α : Type} {p : α → Bool} {g : α → α} :
    ∀ l : List α, (update_first p g l).2 = false → ∀ f ∈ l, p f = false := by
  intro l
  induction l with
  | nil =>
    intro _ f hf
    cases hf
  | cons x xs ih =>
    intro h f hf
    rw [update_first] at h
    by_cases hx : p x = true
    · rw [if_pos hx] at h
      cases h
    · rw [if_neg hx] at h
      rcases List.mem_cons.mp hf with rfl | hm
      · simpa using hx
      · exact ih h f hm

theorem update_first_snd_true {α : Type} {p : α → Bool} {g : α → α} :
    ∀ l : List α, (∃ f ∈ l, p f = true) → (update_first p g l).2 = true := by
  intro l
  induction l with
  | nil =>
    rintro ⟨f, hf, _⟩
    cases hf
  | cons x xs ih =>
    rintro ⟨f, hf, hp⟩
    rw [update_first]
    by_cases hx : p x = true
    · rw [if_pos hx]
    · rw [if_neg hx]
      rcases List.mem_cons.mp hf with rfl | hm
      · exact absurd hp hx
      · exact ih ⟨f, hm, hp⟩

theorem update_first_mem_processed (now : String) (r : Option ResultData) (url : String) :
    ∀ l : List Filing, l.countP (fun f => f.pdf_link == url) ≤ 1 →
      ∀ f ∈ (update_first (fun f => f.pdf_link == url) (apply_processed now r) l).1,
        f.pdf_link = url → f.processing_status = some "processed" := by
  intro l
  induction l with
  | nil =>
    intro _ f hf
    rw [update_first] at hf
    cases hf
  | cons x xs ih =>
    intro hc f hf hlink
    rw [update_first] at hf
    by_cases hx : (x.pdf_link == url) = true
    · rw [if_pos hx] at hf
      rcases List.mem_cons.mp hf with rfl | hm
      · exact apply_processed_status now r x
      · exfalso
        have hcc : (x :: xs).countP (fun f => f.pdf_link == url) =
            xs.countP (fun f => f.pdf_link == url) + 1 :=
          List.countP_cons_of_pos _ _ hx
        have h0 : xs.countP (fun f => f.pdf_link == url) = 0 := by
          rw [hcc] at hc
          omega
        have := (List.countP_eq_zero.mp h0) f hm
        exact this (by simpa using hlink)
    · rw [if_neg hx] at hf
      rcases List.mem_cons.mp hf with rfl | hm
      · exact absurd (by simpa using hlink) hx
      · refine ih ?_ f hm hlink
        have hcc : (x :: xs).countP (fun f => f.pdf_link == url) =
            xs.countP (fun f => f.pdf_link == url) :=
          List.countP_cons_of_neg _ _ hx
        rw [hcc] at hc
        exact hc

theorem all_filings_countP (p : Filing → Bool) :
    ∀ ms : List (String × Member),
      (all_filings ms).countP p =
        (ms.map (fun q => q.2.filings.countP p)).sum := by
  intro ms
  induction ms with
  | nil => rfl
  | cons km rest ih =>
    rcases km with ⟨k, m⟩
    rw [show all_filings ((k, m) :: rest) = m.filings ++ all_filings rest from rfl]
    rw [List.countP_append, ih]
    rfl

theorem update_first_member_snd_true {p : Filing → Bool} {g : Filing → Filing} :
    ∀ ms : List (String × Member), (∃ f ∈ all_filings ms, p f = true) →
      (update_first_member p g ms).2 = true := by
  intro ms
  induction ms with
  | nil =>
    rintro ⟨f, hf, _⟩
    cases hf
  | cons km rest ih =>
    rcases km with ⟨k, m⟩
    rintro ⟨f, hf, hp⟩
    rw [update_first_member]
    rcases List.mem_append.mp hf with hm | hm
    · rw [if_pos (update_first_snd_true m.filings ⟨f, hm, hp⟩)]
    · by_cases hr : (update_first p g m.filings).2 = true
      · rw [if_pos hr]
      · rw [if_neg hr]
        exact ih ⟨f, hm, hp⟩

theorem update_first_mem_of_snd_true {α : Type} {p : α → Bool} {g : α → α} :
    ∀ l : List α, (update_first p g l).2 = true → ∃ f ∈ l, p f = true := by
  intro l
  induction l with
  | nil =>
    intro h
    cases h
  | cons x xs ih =>
    intro h
    rw [update_first] at h
    by_cases hx : p x = true
    · exact ⟨x, List.mem_cons_self x xs, hx⟩
    · rw [if_neg hx] at h
      rcases ih h with ⟨f, hm, hp⟩
      exact ⟨f, List.mem_cons_of_mem x hm, hp⟩

theorem update_first_member_mem_processed (now : String) (r : Option ResultData) (url : String) :
    ∀ ms : List (String × Member),
      (all_filings ms).countP (fun f => f.pdf_link == url) ≤ 1 →
      ∀ f ∈ all_filings
          (update_first_member (fun f => f.pdf_link == url) (apply_processed now r) ms).1,
        f.pdf_link = url → f.processing_status = some "processed" := by
  intro ms
  induction ms with
  | nil =>
    intro _ f hf
    rw [update_first_member] at hf
    cases hf
  | cons km rest ih =>
    rcases km with ⟨k, m⟩
    intro hc f hf hlink
    rw [show all_filings ((k, m) :: rest) = m.filings ++ all_filings rest from rfl,
      List.countP_append] at hc
    rw [update_first_member] at hf
    by_cases hr :
        (update_first (fun f => f.pdf_link == url) (apply_processed now r) m.filings).2 = true
    · rw [if_pos hr] at hf
      rw [show all_filings ((k, { m with filings :=
            (update_first (fun f => f.pdf_link == url) (apply_processed now r) m.filings).1 })
          :: rest) =
          (update_first (fun f => f.pdf_link == url) (apply_processed now r) m.filings).1 ++
            all_filings rest from rfl] at hf
      rcases List.mem_append.mp hf with hm | hm
      · exact update_first_mem_processed now r url m.filings (by omega) f hm hlink
      · exfalso
        rcases update_first_mem_of_snd_true m.filings hr with ⟨a, ha, hpa⟩
        have hpos : 0 < m.filings.countP (fun f => f.pdf_link == url) :=
          List.countP_pos_iff.mpr ⟨a, ha, hpa⟩
        have h0 : (all_filings rest).countP (fun f => f.pdf_link == url) = 0 := by omega
        exact (List.countP_eq_zero.mp h0) f hm (by simpa using hlink)
    · rw [if_neg hr] at hf
      rw [show all_filings ((k, m) ::
            (update_first_member (fun f => f.pdf_link == url) (apply_processed now r) rest).1) =
          m.filings ++ all_filings
            (update_first_member (fun f => f.pdf_link == url) (apply_processed now r) rest).1
          from rfl] at hf
      rcases List.mem_append.mp hf with hm | hm
      · exfalso
        have hfalse := update_first_snd_false m.filings (by simpa using hr) f hm
        simp [hlink] at hfalse
      · exact ih (by omega) f hm hlink

theorem identify_aux_mem :
    ∀ ms : List (String × Member), ∀ info ∈ identify_aux ms,
      ∃ f ∈ all_filings ms, f.pdf_link = info.pdf_url ∧ needs_processing f = true := by
  intro ms
  induction ms with
  | nil =>
    intro info hinfo
    cases hinfo
  | cons km rest ih =>
    rcases km with ⟨k, m⟩
    intro info hinfo
    rw [identify_aux] at hinfo
    rcases List.mem_append.mp hinfo with hm | hm
    · rcases List.mem_map.mp hm with ⟨f, hf, rfl⟩
      rcases List.mem_filter.mp hf with ⟨hfm, hneed⟩
      exact ⟨f, List.mem_append.mpr (Or.inl hfm), rfl, hneed⟩
    · rcases ih info hm with ⟨f, hfm, hlink, hneed⟩
      exact ⟨f, List.mem_append.mpr (Or.inr hfm), hlink, hneed⟩

theorem needs_processing_of_processed {f : Filing}
    (h : f.processing_status = some "processed") : needs_processing f = false := by
  simp [needs_processing, h]

theorem mark_filing_processed_fst (now pdf_url : String) (result : Option ResultData)
    (congress : CongressData) (trading : TradingData) :
    (mark_filing_processed now pdf_url result congress trading).1 =
      (if (update_first_member (fun f => f.pdf_link == pdf_url) (apply_processed now result)
            congress.members).2
       then save_congress_data now { congress with members :=
            (update_first_member (fun f => f.pdf_link == pdf_url) (apply_processed now result)
              congress.members).1 }
       else congress) := rfl

theorem mark_filing_processed_snd_pending (now pdf_url : String) (result : Option ResultData)
    (congress : CongressData) (trading : TradingData) :
    (mark_filing_processed now pdf_url result congress trading).2.pending_processing =
      trading.pending_processing.filter (fun item => item.pdf_url != pdf_url) := by
  rcases result with _ | r <;> rfl

theorem mark_filing_processed_snd_processed (now pdf_url : String) (r : ResultData)
    (congress : CongressData) (trading : TradingData) :
    (mark_filing_processed now pdf_url (some r) congress trading).2.processed_filings =
      dict_insert (filing_no pdf_url) (.res r) trading.processed_filings := rfl

/-- C1: marking a pending Filing processed by its link sets its status to
`processed`, removes every pending-queue entry keyed by that link, and the
Filing no longer appears in `identify_pending_filings()` (under the spec
invariant that the source link is unique across the registry). -/
theorem c1_mark_processed (now pdf_url : String) (result : Option ResultData)
    (congress : CongressData) (trading : TradingData)
    (huniq : (all_filings congress.members).countP (fun f => f.pdf_link == pdf_url) = 1)
    (hpend : ∃ f ∈ all_filings congress.members, f.pdf_link = pdf_url ∧
      (f.processing_status = none ∨ f.processing_status = some "pending"))
    (_hq : ∃ e ∈ trading.pending_processing, e.pdf_url = pdf_url) :
    (∀ f ∈ all_filings (mark_filing_processed now pdf_url result congress trading).1.members,
      f.pdf_link = pdf_url → f.processing_status = some "processed") ∧
    (∀ e ∈ (mark_filing_processed now pdf_url result congress trading).2.pending_processing,
      e.pdf_url ≠ pdf_url) ∧
    (∀ info ∈ identify_pending_filings
        (mark_filing_processed now pdf_url result congress trading).1,
      info.pdf_url ≠ pdf_url) := by
  have hflag : (update_first_member (fun f => f.pdf_link == pdf_url)
      (apply_processed now result) congress.members).2 = true := by
    apply update_first_member_snd_true
    rcases hpend with ⟨f, hm, hlink, _⟩
    exact ⟨f, hm, by simpa using hlink⟩
  have hfst : (mark_filing_processed now pdf_url result congress trading).1.members =
      (update_first_member (fun f => f.pdf_link == pdf_url) (apply_processed now result)
        congress.members).1 := by
    rw [mark_filing_processed_fst, if_pos hflag]
    rfl
  have hmain : ∀ f ∈ all_filings
      (mark_filing_processed now pdf_url result congress trading).1.members,
      f.pdf_link = pdf_url → f.processing_status = some "processed" := by
    rw [hfst]
    exact update_first_member_mem_processed now result pdf_url congress.members (by omega)
  refine ⟨hmain, ?_, ?_⟩
  · intro e he
    rw [mark_filing_processed_snd_pending] at he
    rcases List.mem_filter.mp he with ⟨_, hpred⟩
    simpa using hpred
  · intro info hinfo hurl
    rcases identify_aux_mem _ info hinfo with ⟨f, hfm, hflink, hneed⟩
    have hstat := hmain f hfm (by rw [hflink, hurl])
    rw [needs_processing_of_processed hstat] at hneed
    cases hneed

/-- Concrete registry/ledger fixtures for witnesses and counterexamples. -/
def sample_filing : Filing :=
  { pdf_link := "https://x/9001.pdf", pdf_id := "9001", filing_type := "P", year := "2024",
    processing_status := some "pending", processed_at := none,
    has_stock_transactions := none, error := none, failed_at := none }

def sample_congress : CongressData :=
  { last_updated := none, total_members := 1, total_filings := 1,
    members := [("doe_x", { name := "Doe", office := "X", filings := [sample_filing] })] }

def sample_entry : PendingEntry :=
  { member_name := "Doe", pdf_id := "9001", pdf_url := "https://x/9001.pdf",
    filing_type := "P", year := "2024", discovered_at := none }

def sample_trading : TradingData :=
  { last_updated := "", pending_processing := [sample_entry], processed_filings := [],
    summary := { total_pdfs := 1, processed_pdfs := 0, pending_pdfs := 1 } }

theorem c1_witness :
    (∀ f ∈ all_filings
        (mark_filing_processed "T" "https://x/9001.pdf" none sample_congress sample_trading).1.members,
      f.pdf_link = "https://x/9001.pdf" → f.processing_status = some "processed") ∧
    (∀ e ∈ (mark_filing_processed "T" "https://x/9001.pdf" none sample_congress
        sample_trading).2.pending_processing,
      e.pdf_url ≠ "https://x/9001.pdf") ∧
    (∀ info ∈ identify_pending_filings
        (mark_filing_processed "T" "https://x/9001.pdf" none sample_congress sample_trading).1,
      info.pdf_url ≠ "https://x/9001.pdf") :=
  c1_mark_processed "T" "https://x/9001.pdf" none sample_congress sample_trading
    (by decide) (by decide) (by decide)

/-- C3 fails in its second half: on the transient path the pending queue is
left exactly as it was, but the error message is only printed to the
console; nothing in the persisted registry or ledger records it. -/
theorem c3_counterexample :
    (mark_filing_error "T" "https://x/9001.pdf" "boom" false sample_congress
        sample_trading).2.1.pending_processing = sample_trading.pending_processing ∧
    ¬ ((∃ f ∈ all_filings (mark_filing_error "T" "https://x/9001.pdf" "boom" false
          sample_congress sample_trading).1.members, f.error = some "boom") ∨
       (∃ kv ∈ (mark_filing_error "T" "https://x/9001.pdf" "boom" false sample_congress
          sample_trading).2.1.processed_filings, ledger_error_msg kv.2 = some "boom")) := by
  refine ⟨rfl, ?_⟩
  decide

/-- C3 amended: `mark_filing_error` with `is_permanent=False` leaves the
pending queue and the processed-filings map exactly as they were and does
not touch the registry at all; the error context is only written to the
console log, not persisted. -/
theorem c3_amended (now pdf_url msg : String) (congress : CongressData)
    (trading : TradingData) :
    (mark_filing_error now pdf_url msg false congress trading).1 = congress ∧
    (mark_filing_error now pdf_url msg false congress trading).2.1.pending_processing =
      trading.pending_processing ∧
    (mark_filing_error now pdf_url msg false congress trading).2.1.processed_filings =
      trading.processed_filings ∧
    (mark_filing_error now pdf_url msg false congress trading).2.2 =
      ["Temporary error for " ++ pdf_url ++ ": " ++ msg ++ " (will retry)"] :=
  ⟨rfl, rfl, rfl, rfl⟩

theorem dict_insert_keys (k0 : String) (v : LedgerValue) :
    ∀ d : List (String × LedgerValue), ∀ k ∈ (dict_insert k0 v d).map Prod.fst,
      k ∈ d.map Prod.fst ∨ k = k0 := by
  intro d
  induction d with
  | nil =>
    intro k hk
    simp only [dict_insert, List.map_cons, List.map_nil] at hk
    rcases List.mem_singleton.mp hk with rfl
    exact Or.inr rfl
  | cons q rest ih =>
    rcases q with ⟨k', v'⟩
    intro k hk
    rw [dict_insert] at hk
    by_cases he : (k' == k0) = true
    · rw [if_pos he] at hk
      simp only [List.map_cons] at hk ⊢
      exact Or.inl hk
    · rw [if_neg he] at hk
      simp only [List.map_cons] at hk ⊢
      rcases List.mem_cons.mp hk with rfl | hm
      · exact Or.inl (List.mem_cons_self _ _)
      · rcases ih k hm with h1 | h1
        · exact Or.inl (List.mem_cons_of_mem _ h1)
        · exact Or.inr h1

/-- C5 fails as stated: on the permanent-error path the Processed Result is
keyed by the full source link, not by the document identifier derived from
it. -/
theorem c5_counterexample :
    (mark_filing_error "T" "https://x/9001.pdf" "bad" true sample_congress
        sample_trading).2.1.processed_filings.map Prod.fst = ["https://x/9001.pdf"] ∧
    filing_no "https://x/9001.pdf" = "9001" ∧
    "https://x/9001.pdf" ≠ "9001" := by
  refine ⟨rfl, rfl, by decide⟩

/-- C5 amended: the success path keys the stored result by the document id
derived from the link, while the permanent-error path keys its error
record by the full link itself; no key of the resulting map is of any
other form. -/
theorem c5_amended (now pdf_url : String) (r : ResultData) (msg : String)
    (congress : CongressData) (trading : TradingData) :
    (∀ k ∈ (mark_filing_processed now pdf_url (some r) congress
        trading).2.processed_filings.map Prod.fst,
      k ∈ trading.processed_filings.map Prod.fst ∨ k = filing_no pdf_url) ∧
    (∀ k ∈ (mark_filing_error now pdf_url msg true congress
        trading).2.1.processed_filings.map Prod.fst,
      k ∈ trading.processed_filings.map Prod.fst ∨ k = pdf_url) := by
  constructor
  · intro k hk
    rw [mark_filing_processed_snd_processed] at hk
    exact dict_insert_keys (filing_no pdf_url) (.res r) trading.processed_filings k hk
  · intro k hk
    have hp : (mark_filing_error now pdf_url msg true congress
        trading).2.1.processed_filings =
        dict_insert pdf_url (.perm_error now msg) trading.processed_filings := rfl
    rw [hp] at hk
    exact dict_insert_keys pdf_url (.perm_error now msg) trading.processed_filings k hk

theorem c5_witness :
    ("9001" ∈ sample_trading.processed_filings.map Prod.fst ∨
      "9001" = filing_no "https://x/9001.pdf") ∧
    ("https://x/9001.pdf" ∈ sample_trading.processed_filings.map Prod.fst ∨
      "https://x/9001.pdf" = "https://x/9001.pdf") :=
  ⟨(c5_amended "T" "https://x/9001.pdf" ⟨none, some 2⟩ "bad" sample_congress
      sample_trading).1 "9001" (by decide),
   (c5_amended "T" "https://x/9001.pdf" ⟨none, some 2⟩ "bad" sample_congress
      sample_trading).2 "https://x/9001.pdf" (by decide)⟩

end FinDisclosure
